import Mathlib

/-!
# Verification of the procedural audio asset generator

A shallow embedding of `generate_assets.py` over the real numbers.
Python floats are modelled as real numbers; `random.random()` is modelled
as an explicit stream `noise : ℕ → ℝ` of uniform draws in `[0, 1)`, indexed
by the order in which the generator consumes them.  Each asset synthesizer
becomes a function from that stream to a list of quantized samples (`ℤ`).
-/

open Real

noncomputable section

/-- Python `int()` applied to a float: truncation toward zero. -/
def pyInt (x : ℝ) : ℤ := if 0 ≤ x then ⌊x⌋ else ⌈x⌉

/-- The quantizer used by every asset:
`int(max(-32767, min(32767, value * 32767)))`. -/
def quantize (v : ℝ) : ℤ := pyInt (max (-32767) (min 32767 (v * 32767)))

/-- One signed noise draw, `random.random() * 2 - 1`, from a uniform value `u`. -/
def noiseVal (u : ℝ) : ℝ := u * 2 - 1

/-- Clamping as worded in the spec: `clamp(x, lo, hi)`. -/
def clampSpec (x lo hi : ℝ) : ℝ := min hi (max lo x)

/-- Truncation toward zero as worded in the amended spec: drop the fractional
part, moving toward zero. -/
def truncTowardZero (x : ℝ) : ℤ := if x < 0 then -⌊-x⌋ else ⌊x⌋

lemma pyInt_eq_trunc (x : ℝ) : pyInt x = truncTowardZero x := by
  unfold pyInt truncTowardZero
  rcases le_or_lt 0 x with h | h
  · rw [if_pos h, if_neg (not_lt.mpr h)]
  · rw [if_neg (not_le.mpr h), if_pos h, Int.floor_neg, neg_neg]

lemma clamp_comm (x : ℝ) :
    max (-32767) (min 32767 x) = clampSpec x (-32767) 32767 := by
  unfold clampSpec
  rw [max_min_distrib_left, max_eq_right (by norm_num : (-32767 : ℝ) ≤ 32767),
    min_comm]

lemma pyInt_nonneg_eq_floor {x : ℝ} (h : 0 ≤ x) : pyInt x = ⌊x⌋ := if_pos h

lemma quantize_lower (v : ℝ) : -32767 ≤ quantize v := by
  have hzl : ((-32767 : ℤ) : ℝ) ≤ max (-32767 : ℝ) (min 32767 (v * 32767)) := by
    push_cast
    exact le_max_left (-32767 : ℝ) (min 32767 (v * 32767))
  unfold quantize pyInt
  set z := max (-32767 : ℝ) (min 32767 (v * 32767)) with hz
  have hf : (-32767 : ℤ) ≤ ⌊z⌋ := Int.le_floor.mpr hzl
  have hc : (-32767 : ℤ) ≤ ⌈z⌉ := hf.trans (Int.floor_le_ceil z)
  split <;> assumption

lemma quantize_upper (v : ℝ) : quantize v ≤ 32767 := by
  have hzu : max (-32767 : ℝ) (min 32767 (v * 32767)) ≤ ((32767 : ℤ) : ℝ) := by
    push_cast
    exact max_le (by norm_num) (min_le_left (32767 : ℝ) (v * 32767))
  unfold quantize pyInt
  set z := max (-32767 : ℝ) (min 32767 (v * 32767)) with hz
  have hc : ⌈z⌉ ≤ (32767 : ℤ) := Int.ceil_le.mpr hzu
  have hf : ⌊z⌋ ≤ (32767 : ℤ) := (Int.floor_le_ceil z).trans hc
  split <;> assumption

lemma quantize_bounds (v : ℝ) : -32767 ≤ quantize v ∧ quantize v ≤ 32767 :=
  ⟨quantize_lower v, quantize_upper v⟩

/-- Elapsed time of sample `i`: `t = i / sample_rate`, `sample_rate = 44100`. -/
def tOf (i : ℕ) : ℝ := (i : ℝ) / 44100

/-- Python float `%`: `x % y = x - y * floor(x / y)` (for the positive moduli
used here). -/
def fmod (x y : ℝ) : ℝ := x - y * ⌊x / y⌋

/-- `generate_shoot`: `n_samples = int(0.2 * 44100)`. -/
def shootN : ℕ := (pyInt (0.2 * 44100)).toNat

/-- `generate_shoot` per-sample value:
`(random.random() * 2 - 1) * exp(-t * 20) * 0.5`. -/
def shootSample (noise : ℕ → ℝ) (i : ℕ) : ℝ :=
  noiseVal (noise i) * Real.exp (-(tOf i) * 20) * 0.5

/-- The buffer written by `generate_shoot`. -/
def shootBuffer (noise : ℕ → ℝ) : List ℤ :=
  (List.range shootN).map fun i => quantize (shootSample noise i)

/-- `generate_explosion`: `n_samples = int(0.8 * 44100)`. -/
def explN : ℕ := (pyInt (0.8 * 44100)).toNat

/-- The `last_val` state of `generate_explosion` after processing sample `i`:
`last_val = 0` initially, then `value = (last_val + raw_noise) / 2`. -/
def explLast (noise : ℕ → ℝ) : ℕ → ℝ
  | 0 => (0 + noiseVal (noise 0)) / 2
  | i + 1 => (explLast noise i + noiseVal (noise (i + 1))) / 2

/-- `generate_explosion` per-sample value: `value * exp(-t * 5) * 0.8`. -/
def explSample (noise : ℕ → ℝ) (i : ℕ) : ℝ :=
  explLast noise i * Real.exp (-(tOf i) * 5) * 0.8

/-- The buffer written by `generate_explosion`. -/
def explosionBuffer (noise : ℕ → ℝ) : List ℤ :=
  (List.range explN).map fun i => quantize (explSample noise i)

/-- `generate_recruit`: `n_samples = int(0.5 * 44100)`. -/
def recruitN : ℕ := (pyInt (0.5 * 44100)).toNat

/-- `generate_recruit` envelope: fade in over `[0, 0.1)`, fade out over
`(0.4, 0.5]`, `1.0` in between. -/
def recruitEnv (t : ℝ) : ℝ :=
  if t < 0.1 then t / 0.1 else if 0.4 < t then (0.5 - t) / 0.1 else 1.0

/-- `generate_recruit` per-sample value: mean of three sines at
440/554/659 Hz, times envelope, times `0.5`. -/
def recruitSample (i : ℕ) : ℝ :=
  (Real.sin (2 * π * 440 * tOf i) + Real.sin (2 * π * 554 * tOf i) +
      Real.sin (2 * π * 659 * tOf i)) / 3 * recruitEnv (tOf i) * 0.5

/-- The buffer written by `generate_recruit` (it draws no noise; the stream
parameter records that the ambient generator is available but unused). -/
def recruitBuffer (_noise : ℕ → ℝ) : List ℤ :=
  (List.range recruitN).map fun i => quantize (recruitSample i)

/-- `generate_move_land`: `n_samples = int(0.15 * 44100)`. -/
def landN : ℕ := (pyInt (0.15 * 44100)).toNat

/-- `generate_move_land` per-sample value:
`(sin(2π·80·t)*0.6 + noise*0.4) * exp(-t*25) * 0.4`. -/
def landSample (noise : ℕ → ℝ) (i : ℕ) : ℝ :=
  (Real.sin (2 * π * 80 * tOf i) * 0.6 + noiseVal (noise i) * 0.4) *
    Real.exp (-(tOf i) * 25) * 0.4

/-- The buffer written by `generate_move_land`. -/
def moveLandBuffer (noise : ℕ → ℝ) : List ℤ :=
  (List.range landN).map fun i => quantize (landSample noise i)

/-- `generate_move_water`: `n_samples = int(0.3 * 44100)`. -/
def waterN : ℕ := (pyInt (0.3 * 44100)).toNat

/-- The `last_val` state of `generate_move_water` after sample `i`:
`val = last_val * 0.9 + raw * 0.1`, starting from `last_val = 0`. -/
def waterLast (noise : ℕ → ℝ) : ℕ → ℝ
  | 0 => 0 * 0.9 + noiseVal (noise 0) * 0.1
  | i + 1 => waterLast noise i * 0.9 + noiseVal (noise (i + 1)) * 0.1

/-- `generate_move_water` per-sample value:
`val * (0.5 + 0.5·sin(2π·5·t)) * sin(π·(t/0.3)) * 2.0`. -/
def waterSample (noise : ℕ → ℝ) (i : ℕ) : ℝ :=
  waterLast noise i * (0.5 + 0.5 * Real.sin (2 * π * 5 * tOf i)) *
    Real.sin (π * (tOf i / 0.3)) * 2.0

/-- The buffer written by `generate_move_water`. -/
def moveWaterBuffer (noise : ℕ → ℝ) : List ℤ :=
  (List.range waterN).map fun i => quantize (waterSample noise i)

/-- `generate_move_air`: `n_samples = int(0.4 * 44100)`. -/
def airN : ℕ := (pyInt (0.4 * 44100)).toNat

/-- One step of the `generate_move_air` phase accumulator:
`phase += 150/44100; if phase > 1: phase -= 1`. -/
def airStep (p : ℝ) : ℝ :=
  if 1 < p + 150 / 44100 then p + 150 / 44100 - 1 else p + 150 / 44100

/-- The phase value in effect when sample `i` of `generate_move_air` is
emitted (the accumulator starts at `0` and is advanced before output). -/
def moveAirPhase : ℕ → ℝ
  | 0 => airStep 0
  | i + 1 => airStep (moveAirPhase i)

/-- `generate_move_air` envelope: the second `if` of the source overrides the
first, so the `t > 0.35` branch wins. -/
def airEnv (t : ℝ) : ℝ :=
  if 0.35 < t then (0.4 - t) / 0.05 else if t < 0.05 then t / 0.05 else 1.0

/-- `generate_move_air` per-sample value:
`((phase*2 - 1)*0.3 + sin(2π·(150/2)·t)*0.5) * envelope * 0.3`. -/
def airSample (i : ℕ) : ℝ :=
  ((moveAirPhase i * 2 - 1) * 0.3 + Real.sin (2 * π * (150 / 2) * tOf i) * 0.5) *
    airEnv (tOf i) * 0.3

/-- The buffer written by `generate_move_air` (no noise drawn). -/
def moveAirBuffer (_noise : ℕ → ℝ) : List ℤ :=
  (List.range airN).map fun i => quantize (airSample i)

/-- `generate_music`: `beat_dur = 60 / bpm` with `bpm = 130`. -/
def beatDur : ℝ := 60 / 130

/-- `bar_dur = beat_dur * 4`. -/
def barDur : ℝ := beatDur * 4

/-- `total_dur = bar_dur * 4` (4 bars). -/
def totalDur : ℝ := barDur * 4

/-- `sixteenth = beat_dur / 4`. -/
def sixteenth : ℝ := beatDur / 4

/-- `generate_music`: `n_samples = int(total_dur * 44100)`. -/
def musicN : ℕ := (pyInt (totalDur * 44100)).toNat

/-- Kick voice as a function of `beat_time`: active while `beat_time < 0.15`,
contributing `sin(2π·(150·exp(-kt·30))·kt) · exp(-kt·20) · 0.8`. -/
def kickContrib (bt : ℝ) : ℝ :=
  if bt < 0.15 then
    Real.sin (2 * π * (150 * Real.exp (-bt * 30)) * bt) * Real.exp (-bt * 20) * 0.8
  else 0

/-- Hi-hat voice as a function of the drawn uniform `u` and `beat_time`:
active in the first `0.1 s` of the second half of the beat. -/
def hatContrib (u bt : ℝ) : ℝ :=
  if beatDur / 2 < bt ∧ bt < beatDur / 2 + 0.1 then
    noiseVal u * Real.exp (-(bt - beatDur / 2) * 50) * 0.3
  else 0

/-- Bass frequency: `55` Hz, overridden to `41.2` when `(t // bar_dur) % 2 == 1`. -/
def bassFreq (t : ℝ) : ℝ := if ⌊t / barDur⌋ % 2 = 1 then 41.2 else 55

/-- Bass voice: sign-square of `sin(2π·f·t)`, linear decay over the second
half of the beat, scaled by `0.4`. -/
def bassContrib (t bt : ℝ) : ℝ :=
  if beatDur / 2 < bt then
    ((if 0 < Real.sin (2 * π * bassFreq t * t) then 1.0 else 0) - 0.5) *
      (1.0 - (bt - beatDur / 2) / (beatDur / 2)) * 0.4
  else 0

/-- The 8-note arpeggio pattern `[440, 554, 659, 880, 659, 554, 440, 329]`. -/
def leadNotesBase : List ℝ := [440, 554, 659, 880, 659, 554, 440, 329]

/-- `notes = [...] * 2`. -/
def leadNotes : List ℝ := leadNotesBase ++ leadNotesBase

/-- `step = int((t % bar_dur) / sixteenth)`. -/
def leadStep (t : ℝ) : ℤ := pyInt (fmod t barDur / sixteenth)

/-- `note = notes[step % len(notes)]`. -/
def leadNote (t : ℝ) : ℝ := leadNotes.getD ((leadStep t).toNat % leadNotes.length) 0

/-- Lead voice: `sin(2π·note·t) · exp(-l_t·10) · 0.15` with `l_t = t % sixteenth`. -/
def leadContrib (t : ℝ) : ℝ :=
  Real.sin (2 * π * leadNote t * t) * Real.exp (-(fmod t sixteenth) * 10) * 0.15

/-- Whether `generate_music` draws a noise sample at sample index `i`
(exactly the hi-hat gate). -/
def hatActive (i : ℕ) : Prop :=
  beatDur / 2 < fmod (tOf i) beatDur ∧ fmod (tOf i) beatDur < beatDur / 2 + 0.1

instance (i : ℕ) : Decidable (hatActive i) := by unfold hatActive; infer_instance

/-- How many noise draws `generate_music` has consumed before sample `i`. -/
def drawsBefore : ℕ → ℕ
  | 0 => 0
  | i + 1 => drawsBefore i + if hatActive i then 1 else 0

/-- `generate_music` per-sample mixed value: the sum of the four voices. -/
def musicVal (noise : ℕ → ℝ) (i : ℕ) : ℝ :=
  kickContrib (fmod (tOf i) beatDur) +
    hatContrib (noise (drawsBefore i)) (fmod (tOf i) beatDur) +
    bassContrib (tOf i) (fmod (tOf i) beatDur) + leadContrib (tOf i)

/-- The buffer written by `generate_music`. -/
def musicBuffer (noise : ℕ → ℝ) : List ℤ :=
  (List.range musicN).map fun i => quantize (musicVal noise i)

/-- All seven produced buffers, in source order. -/
def allBuffers (noise : ℕ → ℝ) : List (List ℤ) :=
  [shootBuffer noise, explosionBuffer noise, recruitBuffer noise,
    moveLandBuffer noise, moveWaterBuffer noise, moveAirBuffer noise,
    musicBuffer noise]

/-- One-pole smoother as worded in the spec: `y = α·y_prev + (1-α)·x`,
with the first call using `y_prev = 0`, storing `y` as the new state. -/
def onePole (a : ℝ) (x : ℕ → ℝ) : ℕ → ℝ
  | 0 => a * 0 + (1 - a) * x 0
  | n + 1 => a * onePole a x n + (1 - a) * x (n + 1)

/-- Lead-voice note as worded in the spec: the fixed 8-entry sequence
repeated twice, selected by `floor((t mod bar)/sixteenth) mod 16`. -/
def leadSpecNote (t : ℝ) : ℝ :=
  (([440, 554, 659, 880, 659, 554, 440, 329] ++
      [440, 554, 659, 880, 659, 554, 440, 329] : List ℝ)).getD
    ((⌊fmod t barDur / sixteenth⌋).toNat % 16) 0

/-- Lead-voice contribution as worded in the spec:
`sin(2π·note·t) · exp(-10·lt) · 0.15` with `lt = t mod sixteenth`;
the sine's phase argument is the absolute time `t`. -/
def leadSpecContrib (t : ℝ) : ℝ :=
  Real.sin (2 * π * leadSpecNote t * t) * Real.exp (-10 * fmod t sixteenth) * 0.15

lemma floor_shootDur : ⌊(0.2 : ℝ) * 44100⌋ = 8820 := by norm_num

lemma floor_explDur : ⌊(0.8 : ℝ) * 44100⌋ = 35280 := by norm_num

lemma floor_recruitDur : ⌊(0.5 : ℝ) * 44100⌋ = 22050 := by norm_num

lemma floor_landDur : ⌊(0.15 : ℝ) * 44100⌋ = 6615 := by norm_num

lemma floor_waterDur : ⌊(0.3 : ℝ) * 44100⌋ = 13230 := by norm_num

lemma floor_airDur : ⌊(0.4 : ℝ) * 44100⌋ = 17640 := by norm_num

lemma floor_musicDur : ⌊(60 / 130 * 4 * 4 : ℝ) * 44100⌋ = 325661 := by norm_num

lemma shootN_eq : shootN = 8820 := by
  unfold shootN
  rw [pyInt_nonneg_eq_floor (by norm_num), floor_shootDur]
  rfl

lemma explN_eq : explN = 35280 := by
  unfold explN
  rw [pyInt_nonneg_eq_floor (by norm_num), floor_explDur]
  rfl

lemma recruitN_eq : recruitN = 22050 := by
  unfold recruitN
  rw [pyInt_nonneg_eq_floor (by norm_num), floor_recruitDur]
  rfl

lemma landN_eq : landN = 6615 := by
  unfold landN
  rw [pyInt_nonneg_eq_floor (by norm_num), floor_landDur]
  rfl

lemma waterN_eq : waterN = 13230 := by
  unfold waterN
  rw [pyInt_nonneg_eq_floor (by norm_num), floor_waterDur]
  rfl

lemma airN_eq : airN = 17640 := by
  unfold airN
  rw [pyInt_nonneg_eq_floor (by norm_num), floor_airDur]
  rfl

lemma musicN_eq : musicN = 325661 := by
  unfold musicN totalDur barDur beatDur
  rw [pyInt_nonneg_eq_floor (by norm_num), floor_musicDur]
  rfl

lemma quantize_zero : quantize 0 = 0 := by
  unfold quantize pyInt
  norm_num

end

/-- C1 (counterexample): at `v = 2.6/32767` the clamped scaled value is `2.6`;
the code's quantizer (`int()`, truncation toward zero) yields `2`, while
round-to-nearest of the clamped value is `3`, so the claimed round-to-nearest
behaviour is false. -/
theorem quantize_truncates_not_rounds :
    quantize (2.6 / 32767) = 2 ∧
      round (clampSpec ((2.6 / 32767) * 32767) (-32767) 32767) = 3 := by
  have harg : (2.6 / 32767 : ℝ) * 32767 = 13 / 5 := by norm_num
  constructor
  · unfold quantize pyInt
    rw [harg]
    rw [min_eq_right (by norm_num), max_eq_right (by norm_num),
      if_pos (by norm_num)]
    norm_num
  · unfold clampSpec
    rw [harg, max_eq_right (by norm_num), min_eq_right (by norm_num)]
    norm_num [round_eq]

/-- C1 (amended): for every real input `v`, the quantizer produces the
truncation toward zero of `clamp(v * 32767, -32767, 32767)`; out-of-range
inputs are clamped, never an error. -/
theorem quantize_eq_trunc_clamp (v : ℝ) :
    quantize v = truncTowardZero (clampSpec (v * 32767) (-32767) 32767) := by
  unfold quantize
  rw [clamp_comm, pyInt_eq_trunc]

/-- C2: every asset's buffer has length exactly
`floor(duration_seconds * sample_rate)` for its fixed constants. -/
theorem buffer_lengths (noise : ℕ → ℝ) :
    ((shootBuffer noise).length = 8820 ∧ (8820 : ℤ) = ⌊(0.2 : ℝ) * 44100⌋) ∧
    ((explosionBuffer noise).length = 35280 ∧ (35280 : ℤ) = ⌊(0.8 : ℝ) * 44100⌋) ∧
    ((recruitBuffer noise).length = 22050 ∧ (22050 : ℤ) = ⌊(0.5 : ℝ) * 44100⌋) ∧
    ((moveLandBuffer noise).length = 6615 ∧ (6615 : ℤ) = ⌊(0.15 : ℝ) * 44100⌋) ∧
    ((moveWaterBuffer noise).length = 13230 ∧ (13230 : ℤ) = ⌊(0.3 : ℝ) * 44100⌋) ∧
    ((moveAirBuffer noise).length = 17640 ∧ (17640 : ℤ) = ⌊(0.4 : ℝ) * 44100⌋) ∧
    ((musicBuffer noise).length = 325661 ∧
      (325661 : ℤ) = ⌊(60 / 130 * 4 * 4 : ℝ) * 44100⌋) := by
  refine ⟨⟨?_, floor_shootDur.symm⟩, ⟨?_, floor_explDur.symm⟩,
    ⟨?_, floor_recruitDur.symm⟩, ⟨?_, floor_landDur.symm⟩,
    ⟨?_, floor_waterDur.symm⟩, ⟨?_, floor_airDur.symm⟩,
    ⟨?_, floor_musicDur.symm⟩⟩
  · simp [shootBuffer, shootN_eq]
  · simp [explosionBuffer, explN_eq]
  · simp [recruitBuffer, recruitN_eq]
  · simp [moveLandBuffer, landN_eq]
  · simp [moveWaterBuffer, waterN_eq]
  · simp [moveAirBuffer, airN_eq]
  · simp [musicBuffer, musicN_eq]

lemma recruitEnv_zero : recruitEnv 0 = 0 := by
  unfold recruitEnv
  norm_num

lemma recruitEnv_end : recruitEnv 0.5 = 0 := by
  unfold recruitEnv
  norm_num

lemma tOf_zero : tOf 0 = 0 := by
  simp [tOf]

lemma recruitSample_zero : recruitSample 0 = 0 := by
  unfold recruitSample
  rw [tOf_zero, recruitEnv_zero]
  ring

/-- C6: the recruit envelope is 0 at `t = 0`, 0 at `t = 0.5`, and exactly
`1.0` throughout the closed interval `[0.1, 0.4]`. -/
theorem recruit_envelope_boundary :
    recruitEnv 0 = 0 ∧ recruitEnv 0.5 = 0 ∧
      ∀ t : ℝ, 0.1 ≤ t → t ≤ 0.4 → recruitEnv t = 1.0 := by
  refine ⟨recruitEnv_zero, recruitEnv_end, fun t h1 h2 => ?_⟩
  unfold recruitEnv
  rw [if_neg (not_lt.mpr h1), if_neg (not_lt.mpr h2)]

/-- C6 witness: instantiated at `t = 0.25`. -/
theorem recruit_envelope_boundary_witness :
    (0.1 : ℝ) ≤ 0.25 ∧ (0.25 : ℝ) ≤ 0.4 ∧ recruitEnv 0.25 = 1.0 :=
  ⟨by norm_num, by norm_num,
    recruit_envelope_boundary.2.2 0.25 (by norm_num) (by norm_num)⟩

/-- C10: each noise draw `2u - 1` from a uniform `u ∈ [0,1)` lies in
`[-1, 1)`; `-1` is attained at `u = 0`, while `1` is never produced. -/
theorem noise_draw_range :
    (∀ u : ℝ, 0 ≤ u → u < 1 → -1 ≤ noiseVal u ∧ noiseVal u < 1) ∧
      noiseVal 0 = -1 := by
  constructor
  · intro u h0 h1
    unfold noiseVal
    constructor <;> nlinarith
  · unfold noiseVal
    norm_num

/-- C10 witness: instantiated at `u = 1/2`. -/
theorem noise_draw_range_witness :
    (0 : ℝ) ≤ 1 / 2 ∧ (1 / 2 : ℝ) < 1 ∧
      (-1 ≤ noiseVal (1 / 2) ∧ noiseVal (1 / 2) < 1) :=
  ⟨by norm_num, by norm_num, noise_draw_range.1 (1 / 2) (by norm_num) (by norm_num)⟩

/-- C3: every element of every produced buffer of every asset lies in the
asymmetric range `[-32767, 32767]`. -/
theorem sample_bounds (noise : ℕ → ℝ) (B : List ℤ) (x : ℤ)
    (hB : B ∈ allBuffers noise) (hx : x ∈ B) : -32767 ≤ x ∧ x ≤ 32767 := by
  simp only [allBuffers, List.mem_cons, List.not_mem_nil, or_false] at hB
  rcases hB with rfl | rfl | rfl | rfl | rfl | rfl | rfl <;>
  · simp only [shootBuffer, explosionBuffer, recruitBuffer, moveLandBuffer,
      moveWaterBuffer, moveAirBuffer, musicBuffer, List.mem_map,
      List.mem_range] at hx
    obtain ⟨i, -, rfl⟩ := hx
    exact quantize_bounds _

/-- C3 witness: the element `0` of the recruit buffer under the zero stream. -/
theorem sample_bounds_witness :
    recruitBuffer (fun _ => 0) ∈ allBuffers (fun _ => 0) ∧
      (0 : ℤ) ∈ recruitBuffer (fun _ => 0) ∧
      (-32767 ≤ (0 : ℤ) ∧ (0 : ℤ) ≤ 32767) := by
  have h1 : recruitBuffer (fun _ => 0) ∈ allBuffers (fun _ => 0) := by
    simp [allBuffers]
  have h2 : (0 : ℤ) ∈ recruitBuffer (fun _ => 0) := by
    unfold recruitBuffer
    refine List.mem_map.mpr ⟨0, List.mem_range.mpr ?_, ?_⟩
    · rw [recruitN_eq]; norm_num
    · rw [recruitSample_zero, quantize_zero]
  exact ⟨h1, h2, sample_bounds (fun _ => 0) _ 0 h1 h2⟩

lemma explLast_eq_onePole (noise : ℕ → ℝ) (i : ℕ) :
    explLast noise i = onePole 0.5 (fun k => noiseVal (noise k)) i := by
  induction i with
  | zero => unfold explLast onePole; ring
  | succ n ih => unfold explLast onePole; rw [ih]; ring

lemma waterLast_eq_onePole (noise : ℕ → ℝ) (i : ℕ) :
    waterLast noise i = onePole 0.9 (fun k => noiseVal (noise k)) i := by
  induction i with
  | zero => unfold waterLast onePole; ring
  | succ n ih => unfold waterLast onePole; rw [ih]; ring

/-- C5: at every sample, the explosion and move_water synthesizers emit the
quantization of the spec's one-pole smoother output (`α = 0.5` resp. `0.9`,
first call from `y_prev = 0`) times their envelope and mix level. -/
theorem smoother_correct :
    (∀ (noise : ℕ → ℝ) (i : ℕ), i < explN →
      (explosionBuffer noise)[i]? =
        some (quantize (onePole 0.5 (fun k => noiseVal (noise k)) i *
          Real.exp (-(tOf i) * 5) * 0.8))) ∧
    (∀ (noise : ℕ → ℝ) (i : ℕ), i < waterN →
      (moveWaterBuffer noise)[i]? =
        some (quantize (onePole 0.9 (fun k => noiseVal (noise k)) i *
          (0.5 + 0.5 * Real.sin (2 * π * 5 * tOf i)) *
          Real.sin (π * (tOf i / 0.3)) * 2.0))) := by
  constructor
  · intro noise i hi
    unfold explosionBuffer
    rw [List.getElem?_map, List.getElem?_range hi, Option.map_some']
    unfold explSample
    rw [explLast_eq_onePole]
  · intro noise i hi
    unfold moveWaterBuffer
    rw [List.getElem?_map, List.getElem?_range hi, Option.map_some']
    unfold waterSample
    rw [waterLast_eq_onePole]

/-- C5 witness: instantiated at sample 0 with the zero stream. -/
theorem smoother_correct_witness :
    (0 : ℕ) < explN ∧ (0 : ℕ) < waterN ∧
      (explosionBuffer (fun _ => 0))[0]? =
        some (quantize (onePole 0.5 (fun _ => noiseVal 0) 0 *
          Real.exp (-(tOf 0) * 5) * 0.8)) ∧
      (moveWaterBuffer (fun _ => 0))[0]? =
        some (quantize (onePole 0.9 (fun _ => noiseVal 0) 0 *
          (0.5 + 0.5 * Real.sin (2 * π * 5 * tOf 0)) *
          Real.sin (π * (tOf 0 / 0.3)) * 2.0)) := by
  have he : (0 : ℕ) < explN := by rw [explN_eq]; norm_num
  have hw : (0 : ℕ) < waterN := by rw [waterN_eq]; norm_num
  exact ⟨he, hw, smoother_correct.1 (fun _ => 0) 0 he,
    smoother_correct.2 (fun _ => 0) 0 hw⟩

/-- C7: the bass frequency at each sample of the music buffer is decided by
bar parity: 55 Hz when `floor(t / bar_dur)` is even, 41.2 Hz when odd. -/
theorem bass_freq_parity (i : ℕ) (_h : i < musicN) :
    (⌊tOf i / barDur⌋ % 2 = 0 → bassFreq (tOf i) = 55) ∧
      (⌊tOf i / barDur⌋ % 2 = 1 → bassFreq (tOf i) = 41.2) := by
  constructor
  · intro he
    unfold bassFreq
    rw [if_neg (by omega)]
  · intro ho
    unfold bassFreq
    rw [if_pos ho]

/-- C7 witness: sample 0 sits in bar 0 (even), so the bass plays 55 Hz. -/
theorem bass_freq_parity_witness :
    (0 : ℕ) < musicN ∧ ⌊tOf 0 / barDur⌋ % 2 = 0 ∧ bassFreq (tOf 0) = 55 := by
  have h0 : (0 : ℕ) < musicN := by rw [musicN_eq]; norm_num
  have hf : ⌊tOf 0 / barDur⌋ % 2 = 0 := by
    rw [tOf_zero, zero_div, Int.floor_zero]
    decide
  exact ⟨h0, hf, (bass_freq_parity 0 h0).1 hf⟩

lemma fmod_nonneg (x : ℝ) {y : ℝ} (hy : 0 < y) : 0 ≤ fmod x y := by
  have hfr : (⌊x / y⌋ : ℝ) ≤ x / y := Int.floor_le _
  have h1 : y * (⌊x / y⌋ : ℝ) ≤ y * (x / y) :=
    mul_le_mul_of_nonneg_left hfr hy.le
  have h2 : y * (x / y) = x := by field_simp
  unfold fmod
  linarith

lemma barDur_pos : (0 : ℝ) < barDur := by
  unfold barDur beatDur
  norm_num

lemma sixteenth_pos : (0 : ℝ) < sixteenth := by
  unfold sixteenth beatDur
  norm_num

lemma leadNote_eq_spec (t : ℝ) : leadNote t = leadSpecNote t := by
  unfold leadNote leadSpecNote leadStep leadNotes leadNotesBase
  rw [pyInt_nonneg_eq_floor
    (div_nonneg (fmod_nonneg t barDur_pos) sixteenth_pos.le)]
  rfl

/-- C8: at every time `t`, the lead voice contributes exactly what the spec
states: `sin(2π·note·t) · exp(-10·lt) · 0.15`, with the note drawn from the
doubled 8-note sequence by `floor((t mod bar)/sixteenth) mod 16`,
`lt = t mod sixteenth`, and the sine phased by absolute time `t`. -/
theorem lead_matches_spec (t : ℝ) : leadContrib t = leadSpecContrib t := by
  unfold leadContrib leadSpecContrib
  rw [leadNote_eq_spec,
    show -(fmod t sixteenth) * 10 = -10 * fmod t sixteenth by ring]

lemma explLast_congr {m₁ m₂ : ℕ → ℝ} (i : ℕ) (h : ∀ k, k ≤ i → m₁ k = m₂ k) :
    explLast m₁ i = explLast m₂ i := by
  induction i with
  | zero => unfold explLast; rw [h 0 le_rfl]
  | succ n ih =>
    unfold explLast
    rw [h (n + 1) le_rfl, ih fun k hk => h k (by omega)]

lemma waterLast_congr {m₁ m₂ : ℕ → ℝ} (i : ℕ) (h : ∀ k, k ≤ i → m₁ k = m₂ k) :
    waterLast m₁ i = waterLast m₂ i := by
  induction i with
  | zero => unfold waterLast; rw [h 0 le_rfl]
  | succ n ih =>
    unfold waterLast
    rw [h (n + 1) le_rfl, ih fun k hk => h k (by omega)]

lemma drawsBefore_le (i : ℕ) : drawsBefore i ≤ i := by
  induction i with
  | zero => exact le_rfl
  | succ n ih =>
    unfold drawsBefore
    split <;> omega

/-- C9: with the same pseudo-random stream (agreement on the draws actually
consumed suffices), every asset synthesizer produces the identical buffer;
the stream is the only source of non-determinism. -/
theorem synth_deterministic (n₁ n₂ : ℕ → ℝ) :
    ((∀ k, k < shootN → n₁ k = n₂ k) → shootBuffer n₁ = shootBuffer n₂) ∧
    ((∀ k, k < explN → n₁ k = n₂ k) → explosionBuffer n₁ = explosionBuffer n₂) ∧
    (recruitBuffer n₁ = recruitBuffer n₂) ∧
    ((∀ k, k < landN → n₁ k = n₂ k) → moveLandBuffer n₁ = moveLandBuffer n₂) ∧
    ((∀ k, k < waterN → n₁ k = n₂ k) → moveWaterBuffer n₁ = moveWaterBuffer n₂) ∧
    (moveAirBuffer n₁ = moveAirBuffer n₂) ∧
    ((∀ k, k < musicN → n₁ k = n₂ k) → musicBuffer n₁ = musicBuffer n₂) := by
  refine ⟨?_, ?_, rfl, ?_, ?_, rfl, ?_⟩
  · intro h
    unfold shootBuffer
    exact List.map_congr_left fun i hi => by
      unfold shootSample
      rw [h i (List.mem_range.mp hi)]
  · intro h
    unfold explosionBuffer
    exact List.map_congr_left fun i hi => by
      unfold explSample
      rw [explLast_congr i fun k hk =>
        h k (lt_of_le_of_lt hk (List.mem_range.mp hi))]
  · intro h
    unfold moveLandBuffer
    exact List.map_congr_left fun i hi => by
      unfold landSample
      rw [h i (List.mem_range.mp hi)]
  · intro h
    unfold moveWaterBuffer
    exact List.map_congr_left fun i hi => by
      unfold waterSample
      rw [waterLast_congr i fun k hk =>
        h k (lt_of_le_of_lt hk (List.mem_range.mp hi))]
  · intro h
    unfold musicBuffer
    exact List.map_congr_left fun i hi => by
      unfold musicVal
      rw [h (drawsBefore i)
        (lt_of_le_of_lt (drawsBefore_le i) (List.mem_range.mp hi))]

/-- C9 witness: two streams that agree on the first 325661 draws (and differ
beyond) yield identical buffers for all seven assets. -/
theorem synth_deterministic_witness :
    (∀ k : ℕ, k < 325661 →
      (fun _ : ℕ => (0 : ℝ)) k = (fun k' => if k' < 325661 then (0 : ℝ) else 1) k) ∧
    shootBuffer (fun _ => (0 : ℝ)) =
      shootBuffer (fun k' => if k' < 325661 then (0 : ℝ) else 1) ∧
    explosionBuffer (fun _ => (0 : ℝ)) =
      explosionBuffer (fun k' => if k' < 325661 then (0 : ℝ) else 1) ∧
    recruitBuffer (fun _ => (0 : ℝ)) =
      recruitBuffer (fun k' => if k' < 325661 then (0 : ℝ) else 1) ∧
    moveLandBuffer (fun _ => (0 : ℝ)) =
      moveLandBuffer (fun k' => if k' < 325661 then (0 : ℝ) else 1) ∧
    moveWaterBuffer (fun _ => (0 : ℝ)) =
      moveWaterBuffer (fun k' => if k' < 325661 then (0 : ℝ) else 1) ∧
    moveAirBuffer (fun _ => (0 : ℝ)) =
      moveAirBuffer (fun k' => if k' < 325661 then (0 : ℝ) else 1) ∧
    musicBuffer (fun _ => (0 : ℝ)) =
      musicBuffer (fun k' => if k' < 325661 then (0 : ℝ) else 1) := by
  have hagree : ∀ k : ℕ, k < 325661 → (0 : ℝ) = if k < 325661 then (0 : ℝ) else 1 :=
    fun k hk => (if_pos hk).symm
  refine ⟨fun k hk => hagree k hk, ?_, ?_, ?_, ?_, ?_, ?_, ?_⟩
  · exact (synth_deterministic _ _).1 fun k hk =>
      hagree k (by rw [shootN_eq] at hk; omega)
  · exact (synth_deterministic _ _).2.1 fun k hk =>
      hagree k (by rw [explN_eq] at hk; omega)
  · exact (synth_deterministic _ _).2.2.1
  · exact (synth_deterministic _ _).2.2.2.1 fun k hk =>
      hagree k (by rw [landN_eq] at hk; omega)
  · exact (synth_deterministic _ _).2.2.2.2.1 fun k hk =>
      hagree k (by rw [waterN_eq] at hk; omega)
  · exact (synth_deterministic _ _).2.2.2.2.2.1
  · exact (synth_deterministic _ _).2.2.2.2.2.2 fun k hk =>
      hagree k (by rw [musicN_eq] at hk; omega)
